import Mathlib

/-!
Verification of the run-orchestration pipeline of the `kiproject` repository
against its natural-language specification.

The Python sources are shallowly embedded: Python values that flow through the
type-coercion layer of `DatabaseHandler` become the inductive type `PyValue`,
Python floats become `PyFloat` (exact rationals plus the special values `nan`,
`inf`, `-inf`; IEEE rounding is not modelled because none of the verified
functions depends on it), Python exceptions become `Except PyErr`, and the
stateful orchestration loop of `DetectionProcessor.process_images` becomes a
recursive function over an explicit environment recording detector behaviour,
database-insert outcomes and user interrupts.
-/

namespace KiProject

/-- Python float values: a finite value (exact rational; IEEE rounding is
immaterial to the properties proved here), NaN, and the two infinities. -/
inductive PyFloat where
  | finite (q : ℚ)
  | nan
  | inf
  | ninf
deriving DecidableEq, Repr

/-- Python comparison `value != 0` on a float: NaN and the infinities compare
unequal to zero, a finite value compares by its rational value. -/
def PyFloat.neZero : PyFloat → Bool
  | .finite q => if q = 0 then false else true
  | .nan => true
  | .inf => true
  | .ninf => true

/-- Python test `result != result`, true exactly for NaN. -/
def PyFloat.isNan : PyFloat → Bool
  | .nan => true
  | _ => false

/-- The Python values that can reach the coercion layer of `DatabaseHandler`:
`None`, booleans, (unbounded) integers, floats, strings, and `other` for any
further object (e.g. a list or dict), of which only the truth value is
observable by the functions embedded here. -/
inductive PyValue where
  | none
  | bool (b : Bool)
  | int (n : ℤ)
  | float (f : PyFloat)
  | str (s : String)
  | other (truthy : Bool)
deriving DecidableEq, Repr

/-- The Python exceptions that the embedded library calls can raise. -/
inductive PyErr where
  | valueError
  | typeError
  | overflowError
deriving DecidableEq, Repr

/-- ASCII whitespace, the characters stripped by Python `str.strip()` (the
rarely-relevant non-ASCII Unicode space characters are not modelled). -/
def isPySpace (c : Char) : Bool :=
  c = ' ' || c = '\t' || c = '\n' || c = '\r' || c = '\x0b' || c = '\x0c'

/-- Python `str.lstrip()` restricted to a character predicate. -/
def pyDropWhileLeft (p : Char → Bool) (l : List Char) : List Char :=
  l.dropWhile p

/-- Python `str.rstrip()` restricted to a character predicate. -/
def pyDropWhileRight (p : Char → Bool) (l : List Char) : List Char :=
  (l.reverse.dropWhile p).reverse

/-- Python `str.strip()` with an explicit character predicate. -/
def pyStripWith (p : Char → Bool) (l : List Char) : List Char :=
  pyDropWhileRight p (pyDropWhileLeft p l)

/-- Python `str.strip()` (no argument: strips whitespace at both ends). -/
def pyStrip (l : List Char) : List Char :=
  pyStripWith isPySpace l

/-- Python `str.lower()` (ASCII case mapping; the embedded strings are ASCII). -/
def pyLower (l : List Char) : List Char :=
  l.map Char.toLower

/-- Numeric value of a decimal digit character. -/
def digitVal (c : Char) : ℕ := c.toNat - 48

/-- Value of a list of decimal digit characters read in base 10. -/
def digitsToNat (ds : List Char) : ℕ :=
  ds.foldl (fun acc c => 10 * acc + digitVal c) 0

/-- Splits a leading run of decimal digits off a character list. -/
def takeDigits (l : List Char) : List Char × List Char :=
  (l.takeWhile Char.isDigit, l.dropWhile Char.isDigit)

/-- Parses the optional exponent part of a Python float literal and applies it
to the already-parsed mantissa; the whole rest of the input must be consumed. -/
def parseExpPart (m : ℚ) (l : List Char) : Option ℚ :=
  match l with
  | [] => some m
  | c :: r₁ =>
    if c = 'e' then
      let (sgn, r₂) : ℤ × List Char :=
        match r₁ with
        | '+' :: r => (1, r)
        | '-' :: r => (-1, r)
        | r => (1, r)
      let (ds, r₃) := takeDigits r₂
      if ds.isEmpty || !r₃.isEmpty then Option.none
      else some (m * (10 : ℚ) ^ (sgn * (digitsToNat ds : ℤ)))
    else Option.none

/-- Parses an unsigned Python decimal literal `digits [. digits] [exp]` or
`. digits [exp]`; the input is already lower-cased and whitespace-free. -/
def parseNumberBody (l : List Char) : Option ℚ :=
  let (ip, r₁) := takeDigits l
  match r₁ with
  | '.' :: r₂ =>
    let (fp, r₃) := takeDigits r₂
    if ip.isEmpty && fp.isEmpty then Option.none
    else parseExpPart ((digitsToNat ip : ℚ) + (digitsToNat fp : ℚ) / (10 : ℚ) ^ fp.length) r₃
  | _ =>
    if ip.isEmpty then Option.none
    else parseExpPart (digitsToNat ip : ℚ) r₁

/-- Python builtin `float(s)` on a string: strips surrounding whitespace,
accepts an optional sign, the case-insensitive words `nan`, `inf`, `infinity`,
or a decimal literal with optional fraction and exponent. Returns `none` where
Python raises `ValueError`. (PEP 515 digit-group underscores are not
modelled.) -/
def pyParseFloat (s : String) : Option PyFloat :=
  let l := pyLower (pyStrip s.data)
  let (neg, body) : Bool × List Char :=
    match l with
    | '+' :: r => (false, r)
    | '-' :: r => (true, r)
    | r => (false, r)
  if body = ['n', 'a', 'n'] then some .nan
  else if body = ['i', 'n', 'f'] || body = ['i', 'n', 'f', 'i', 'n', 'i', 't', 'y'] then
    some (if neg then .ninf else .inf)
  else
    match parseNumberBody body with
    | some q => some (.finite (if neg then -q else q))
    | Option.none => Option.none

/-- Python builtin `int(s)` on a string: optional surrounding whitespace, an
optional sign, then one or more decimal digits. Returns `none` where Python
raises `ValueError`. -/
def pyParseInt (s : String) : Option ℤ :=
  let l := pyStrip s.data
  let (neg, body) : Bool × List Char :=
    match l with
    | '+' :: r => (false, r)
    | '-' :: r => (true, r)
    | r => (false, r)
  if !body.isEmpty && body.all Char.isDigit then
    some ((if neg then -1 else 1) * (digitsToNat body : ℤ))
  else Option.none

/-- Python truthiness `bool(value)`: `None` is falsy, numbers are truthy iff
non-zero (NaN and the infinities are truthy), strings iff non-empty; for
`other` objects the truth value is carried by the constructor. -/
def pyTruthy : PyValue → Bool
  | .none => false
  | .bool b => b
  | .int n => if n = 0 then false else true
  | .float f => f.neZero
  | .str s => !s.isEmpty
  | .other t => t

/-- Python builtin `float(value)`. An integer of magnitude at least `2 ^ 1024`
overflows (the exact CPython cutoff differs from `2 ^ 1024` by less than one
unit in the last place through rounding; no theorem below touches that
boundary). `None` and container objects raise `TypeError`, an unparsable
string raises `ValueError`. -/
def pyFloatOf : PyValue → Except PyErr PyFloat
  | .none => .error .typeError
  | .bool b => .ok (.finite (if b then 1 else 0))
  | .int n => if 2 ^ 1024 ≤ n.natAbs then .error .overflowError else .ok (.finite (n : ℚ))
  | .float f => .ok f
  | .str s =>
    match pyParseFloat s with
    | some f => .ok f
    | Option.none => .error .valueError
  | .other _ => .error .typeError

/-- Truncation of a rational toward zero, the behaviour of Python `int(float)`
on finite floats. -/
def ratTrunc (q : ℚ) : ℤ := q.num.tdiv (q.den : ℤ)

/-- Python builtin `int(value)`: truncates finite floats toward zero, raises
`ValueError` on NaN, `OverflowError` on the infinities, parses strings in base
10 (`ValueError` on failure), and raises `TypeError` on `None` and container
objects. -/
def pyIntOf : PyValue → Except PyErr ℤ
  | .none => .error .typeError
  | .bool b => .ok (if b then 1 else 0)
  | .int n => .ok n
  | .float (.finite q) => .ok (ratTrunc q)
  | .float .nan => .error .valueError
  | .float .inf => .error .overflowError
  | .float .ninf => .error .overflowError
  | .str s =>
    match pyParseInt s with
    | some n => .ok n
    | Option.none => .error .valueError
  | .other _ => .error .typeError

/-- Embedding of `DatabaseHandler._safe_convert_to_int`
(src/DatabaseHandler.py lines 141-163). The `isinstance` chain of the source
(`None`, `bool`, `str`, `(int, float)`, otherwise truthiness) becomes the
match; the string branch mirrors `value.lower().strip()` membership tests
followed by `float(value)` with `(ValueError, TypeError)` caught to `0`. -/
def safe_convert_to_int (value : PyValue) : ℤ :=
  match value with
  | .none => 0
  | .bool b => if b then 1 else 0
  | .str s =>
    let lower_val : String := ⟨pyStrip (pyLower s.data)⟩
    if lower_val ∈ ["true", "1", "yes", "on"] then 1
    else if lower_val ∈ ["false", "0", "no", "off", ""] then 0
    else
      match pyFloatOf (.str s) with
      | .ok f => if f.neZero then 1 else 0
      | .error _ => 0
  | .int n => if n = 0 then 0 else 1
  | .float f => if f.neZero then 1 else 0
  | .other t => if t then 1 else 0

/-- Embedding of `DatabaseHandler._safe_convert_to_float`
(src/DatabaseHandler.py lines 165-176): `None` maps to null, `float(value)` is
attempted, a NaN result (`result != result`) maps to null, and only
`ValueError` and `TypeError` are caught; any other exception propagates. -/
def safe_convert_to_float (value : PyValue) : Except PyErr (Option PyFloat) :=
  match value with
  | .none => .ok Option.none
  | v =>
    match pyFloatOf v with
    | .ok f => if f.isNan then .ok Option.none else .ok (some f)
    | .error .valueError => .ok Option.none
    | .error .typeError => .ok Option.none
    | .error e => .error e

/-- Embedding of `DatabaseHandler._safe_convert_to_int_nullable`
(src/DatabaseHandler.py lines 178-185): `None` maps to null, `int(value)` is
attempted, and only `ValueError` and `TypeError` are caught; any other
exception propagates. -/
def safe_convert_to_int_nullable (value : PyValue) : Except PyErr (Option ℤ) :=
  match value with
  | .none => .ok Option.none
  | v =>
    match pyIntOf v with
    | .ok n => .ok (some n)
    | .error .valueError => .ok Option.none
    | .error .typeError => .ok Option.none
    | .error e => .error e

/-- Embedding of `CSVExporter._safe_bool_string` (src/CSVExporter.py lines
189-193): `None` maps to the empty string, anything else to `'true'` or
`'false'` by Python truthiness. -/
def safe_bool_string (value : PyValue) : String :=
  match value with
  | .none => ""
  | v => if pyTruthy v then "true" else "false"

/-- Outcome of one call to `detector.detect(image_path)`: either a result dict
(its content is opaque to the orchestration loop, carried here as a serialized
payload) or a raised exception with its message. -/
inductive DetectOutcome where
  | ok (output : String)
  | raise (msg : String)
deriving DecidableEq, Repr

/-- The arguments of one call to `DatabaseHandler.insert_result` made by the
processing loop, together with the call's boolean return (`persisted`). -/
structure InsertCall where
  image_path : String
  classification : String
  model_output : Option String
  success : Bool
  error_message : Option String
  persisted : Bool
deriving DecidableEq, Repr

/-- Environment of one run of `DetectionProcessor.process_images`: the
detector's behaviour per image path, the database's answer to the k-th
`insert_result` call, and the position (0-based item boundary) at which a
`KeyboardInterrupt` arrives, if any. -/
structure LoopEnv where
  detect : String → DetectOutcome
  insertOk : ℕ → Bool
  interruptBefore : Option ℕ

/-- Mutable statistics of the processing loop of `process_images`
(src/DetectionProcessor.py lines 89-92): the two counters and the sequence of
`insert_result` calls made so far. -/
structure LoopState where
  successful_detections : ℕ
  failed_detections : ℕ
  inserts : List InsertCall
deriving DecidableEq, Repr

/-- Embedding of the per-image loop of `DetectionProcessor.process_images`
(src/DetectionProcessor.py lines 100-166). On a normal detector return the
result is written with `success=True` and no error message, and the
`successful` counter is incremented exactly when `insert_result` returned
`True` (lines 127-130); on a detector exception the `failed` counter is
incremented and a failed result with the exception message is written, its
return value ignored (lines 136-153). A `KeyboardInterrupt` observed at an
item boundary aborts the loop with status `'cancelled'` (lines 161-163);
a loop that consumes all images ends with status `'completed'` (line 98). -/
def processLoop (env : LoopEnv) :
    List (String × String) → ℕ → LoopState → LoopState × String
  | [], _, st => (st, "completed")
  | (image_path, classification) :: rest, i, st =>
    if env.interruptBefore = some i then (st, "cancelled")
    else
      match env.detect image_path with
      | .ok output =>
        let ok := env.insertOk st.inserts.length
        processLoop env rest (i + 1)
          { successful_detections := st.successful_detections + (if ok then 1 else 0)
            failed_detections := st.failed_detections + (if ok then 0 else 1)
            inserts := st.inserts ++
              [⟨image_path, classification, some output, true, Option.none, ok⟩] }
      | .raise msg =>
        let ok := env.insertOk st.inserts.length
        processLoop env rest (i + 1)
          { successful_detections := st.successful_detections
            failed_detections := st.failed_detections + 1
            inserts := st.inserts ++
              [⟨image_path, classification, Option.none, false, some msg, ok⟩] }

/-- The fields of the `ai_runs` row for the run that the claims observe. A row
is inserted at run start with the schema defaults `status='running'` and zero
counts (src/DatabaseHandler.py lines 49-74 and 115-139). -/
structure RunRecord where
  status : String
  total_images : ℕ
  successful_detections : ℕ
  failed_detections : ℕ
deriving DecidableEq, Repr

/-- The `max_images` cap of `DetectionProcessor.process_images`
(src/DetectionProcessor.py lines 82-84): Python's `if max_images:` is a
truthiness test, so both `None` and `0` leave the list uncapped. -/
def applyCap (max_images : Option ℕ) (images : List (String × String)) :
    List (String × String) :=
  match max_images with
  | some m => if m = 0 then images else images.take m
  | Option.none => images

/-- Embedding of `DetectionProcessor.process_images` after discovery
(src/DetectionProcessor.py lines 78-186), returning the final `ai_runs` row
and the sequence of `insert_result` calls. An empty image list returns
immediately (lines 78-80) without any `update_run_completion` call, so the row
keeps its insert-time defaults; otherwise the list is capped by `max_images`
when that is truthy (lines 82-84), the loop runs, and `update_run_completion`
(lines 177-186) stores `len(images)` of the capped list together with the two
counters and the final status. -/
def process_images (env : LoopEnv) (images : List (String × String))
    (max_images : Option ℕ) : RunRecord × List InsertCall :=
  if images.isEmpty then
    ({ status := "running", total_images := 0
       successful_detections := 0, failed_detections := 0 }, [])
  else
    let images := applyCap max_images images
    let r := processLoop env images 0 ⟨0, 0, []⟩
    ({ status := r.2, total_images := images.length
       successful_detections := r.1.successful_detections
       failed_detections := r.1.failed_detections }, r.1.inserts)

/-- State of `SystemMonitor` (src/SystemMonitor.py lines 12-17): the
`monitoring` flag and the three sample buffers. Sample values are rationals
(percentages). -/
structure SystemMonitor where
  monitoring : Bool
  cpu_usage : List ℚ
  memory_usage : List ℚ
  gpu_usage : List ℚ
deriving DecidableEq, Repr

/-- The state built by `SystemMonitor.__init__`. -/
def SystemMonitor.init : SystemMonitor :=
  { monitoring := false, cpu_usage := [], memory_usage := [], gpu_usage := [] }

/-- Embedding of `SystemMonitor.start_monitoring` (src/SystemMonitor.py lines
19-24): sets the flag and launches the sampling thread; the buffers are left
untouched. -/
def SystemMonitor.start_monitoring (m : SystemMonitor) : SystemMonitor :=
  { m with monitoring := true }

/-- Embedding of `SystemMonitor.stop_monitoring` (src/SystemMonitor.py lines
26-30): clears the flag and joins the thread, after which no further sample is
appended. -/
def SystemMonitor.stop_monitoring (m : SystemMonitor) : SystemMonitor :=
  { m with monitoring := false }

/-- One iteration of `SystemMonitor._monitor_loop` (src/SystemMonitor.py lines
32-54): while the flag is set, one sample is appended to each buffer under the
mutex; once the flag is cleared the loop body no longer runs. -/
def SystemMonitor.recordSample (m : SystemMonitor) (cpu mem gpu : ℚ) :
    SystemMonitor :=
  if m.monitoring then
    { m with cpu_usage := m.cpu_usage ++ [cpu]
             memory_usage := m.memory_usage ++ [mem]
             gpu_usage := m.gpu_usage ++ [gpu] }
  else m

/-- Embedding of `SystemMonitor.reset_stats` (src/SystemMonitor.py lines
68-73): clears the three buffers. -/
def SystemMonitor.reset_stats (m : SystemMonitor) : SystemMonitor :=
  { m with cpu_usage := [], memory_usage := [], gpu_usage := [] }

/-- Mean of a list of rationals, `np.mean`; only applied to non-empty lists. -/
def listMean (l : List ℚ) : ℚ := l.sum / l.length

/-- Python `max` of a list, guarded by the caller to non-empty lists; defined
as `0` on `[]` to stay total. -/
def pyMaxList : List ℚ → ℚ
  | [] => 0
  | a :: r => r.foldl max a

/-- The aggregate record returned by `SystemMonitor.get_average_usage`. -/
structure UsageStats where
  avg_cpu : ℚ
  max_cpu : ℚ
  avg_memory : ℚ
  max_memory : ℚ
  avg_gpu : ℚ
  max_gpu : ℚ
deriving DecidableEq, Repr

/-- Embedding of `SystemMonitor.get_average_usage` (src/SystemMonitor.py lines
56-66): each aggregate is computed from the corresponding buffer, with `0` for
an empty buffer. -/
def SystemMonitor.get_average_usage (m : SystemMonitor) : UsageStats :=
  { avg_cpu := if m.cpu_usage.isEmpty then 0 else listMean m.cpu_usage
    max_cpu := if m.cpu_usage.isEmpty then 0 else pyMaxList m.cpu_usage
    avg_memory := if m.memory_usage.isEmpty then 0 else listMean m.memory_usage
    max_memory := if m.memory_usage.isEmpty then 0 else pyMaxList m.memory_usage
    avg_gpu := if m.gpu_usage.isEmpty then 0 else listMean m.gpu_usage
    max_gpu := if m.gpu_usage.isEmpty then 0 else pyMaxList m.gpu_usage }

/-- Python `str.replace(src, tgt)` for a single-character pattern: every
occurrence of `src` is replaced by `tgt`. -/
def replaceChar (src : Char) (tgt : List Char) : List Char → List Char
  | [] => []
  | c :: rest =>
    if c = src then tgt ++ replaceChar src tgt rest
    else c :: replaceChar src tgt rest

/-- Result of the loop `while '__' in normalized: normalized =
normalized.replace('__', '_')` (src/DataLoader.py lines 230-231): every run of
consecutive underscores collapses to a single underscore. -/
def collapseUnderscores : List Char → List Char
  | [] => []
  | a :: rest =>
    if a = '_' then
      '_' :: (collapseUnderscores rest).dropWhile (fun c => c = '_')
    else a :: collapseUnderscores rest

/-- The `replacements` table of `DataLoader._normalize_classification`
(src/DataLoader.py lines 211-227), applied in the source's iteration order. -/
def applyReplacements (l : List Char) : List Char :=
  let normalized := replaceChar ' ' ['_'] l
  let normalized := replaceChar '-' ['_'] normalized
  let normalized := replaceChar '.' ['_'] normalized
  let normalized := replaceChar '(' [] normalized
  let normalized := replaceChar ')' [] normalized
  let normalized := replaceChar '[' [] normalized
  let normalized := replaceChar ']' [] normalized
  let normalized := replaceChar '\x7b' [] normalized
  let normalized := replaceChar '\x7d' [] normalized
  let normalized := replaceChar '&' ['a', 'n', 'd'] normalized
  let normalized := replaceChar '+' ['p', 'l', 'u', 's'] normalized
  normalized

/-- The `"unclassified"` fallback of `DataLoader._normalize_classification`
(src/DataLoader.py lines 236-238): when the intermediate result is empty or
has no alphanumeric character, it is replaced wholesale. -/
def fallbackStep (s : List Char) : List Char :=
  if s.isEmpty || !s.any Char.isAlphanum then "unclassified".data else s

/-- The length cap of `DataLoader._normalize_classification`
(src/DataLoader.py lines 240-242): a result longer than 50 characters is
truncated to 50 and stripped of trailing underscores. -/
def truncStep (s : List Char) : List Char :=
  if 50 < s.length then
    pyDropWhileRight (fun c => c = '_') (s.take 50)
  else s

/-- Embedding of `DataLoader._normalize_classification` (src/DataLoader.py
lines 198-244) on character lists: lower-case and trim, apply the replacement
table in its source order, collapse repeated underscores, trim underscores,
fall back to `"unclassified"` when nothing alphanumeric remains, and cap the
length at 50 with a trailing-underscore trim after truncation. -/
def normalizeCore (classification : List Char) : List Char :=
  let normalized := pyStrip (pyLower classification)
  let normalized := applyReplacements normalized
  let normalized := collapseUnderscores normalized
  let normalized := pyStripWith (fun c => c = '_') normalized
  let normalized := fallbackStep normalized
  truncStep normalized

/-- String-level wrapper of `normalizeCore`; this is the function named
`_normalize_classification` in the source. -/
def normalize_classification (classification : String) : String :=
  ⟨normalizeCore classification.data⟩

/-- The generic folder-name set of `DataLoader._is_generic_folder_name`
(src/DataLoader.py lines 172-178). -/
def generic_names : List String :=
  ["data", "images", "pics", "pictures", "photos", "files",
   "dataset", "training", "test", "validation", "samples",
   "input", "output", "raw", "processed", "temp", "tmp",
   "archive", "backup", "export", "import", "uploads",
   "year", "month", "day", "batch", "set", "group"]

/-- Python substring test `needle in haystack` on character lists. -/
def isSubstring (needle haystack : List Char) : Bool :=
  haystack.tails.any (fun t => needle.isPrefixOf t)

/-- Python `str.isdigit()`: non-empty and all decimal digits. -/
def pyIsDigit (l : List Char) : Bool :=
  !l.isEmpty && l.all Char.isDigit

/-- Embedding of `DataLoader._is_generic_folder_name` (src/DataLoader.py lines
168-196): exact membership in the generic set, then the 2-or-4-digit numeric
test, then the contains-a-generic-token test. -/
def is_generic_folder_name (folder_name : String) : Bool :=
  let folder_lower : String := ⟨pyLower folder_name.data⟩
  if folder_lower ∈ generic_names then true
  else if pyIsDigit folder_lower.data &&
      (folder_lower.length = 4 || folder_lower.length = 2) then true
  else generic_names.any (fun g => isSubstring g.data folder_lower.data)

/-- Python `PurePath.relative_to`: paths are modelled as component lists; the
base must be a prefix of the path, otherwise `ValueError` is raised (here:
`none`). -/
def relativeTo (path base : List String) : Option (List String) :=
  if base.isPrefixOf path then some (path.drop base.length) else Option.none

/-- Embedding of `DataLoader._extract_classification_from_path`
(src/DataLoader.py lines 121-166). `data_dir` and `img_path` are component
lists; the surrounding `try/except` returning `"unknown"` corresponds to the
`relative_to` failure case. -/
def extract_classification_from_path (data_dir img_path : List String) :
    String :=
  match relativeTo img_path data_dir with
  | Option.none => "unknown"
  | some rel_path =>
    let path_parts := rel_path.dropLast
    if path_parts.isEmpty then "root_level"
    else if path_parts.length = 1 then
      normalize_classification path_parts.head!
    else
      let deepest_folder := path_parts.getLast!
      if 2 ≤ path_parts.length then
        let parent_folder := path_parts.dropLast.getLast!
        if is_generic_folder_name parent_folder then
          normalize_classification (parent_folder ++ "_" ++ deepest_folder)
        else normalize_classification deepest_folder
      else normalize_classification deepest_folder

/-- Invariant maintained by the underscore-collapsing stage: no two adjacent
underscores. -/
abbrev NoDoubleUnderscore (l : List Char) : Prop :=
  l.Chain' (fun a b => ¬(a = '_' ∧ b = '_'))

/-- The same no-adjacent-underscores invariant as an inductive predicate;
this rigid form keeps elaboration of statements about large normalization
terms cheap. -/
inductive NoDU : List Char → Prop
  | nil : NoDU []
  | single (c : Char) : NoDU [c]
  | cons (a b : Char) (rest : List Char) (hab : ¬(a = '_' ∧ b = '_'))
      (ht : NoDU (b :: rest)) : NoDU (a :: b :: rest)

/-- Specification-side numeric truthiness, written from the spec's words:
"numeric input → true iff it is non-zero, with NaN treated as falsy". -/
def specNumTruthy : PyFloat → Bool
  | .finite q => if q = 0 then false else true
  | .nan => false
  | .inf => true
  | .ninf => true

/-- Specification-side boolean coercion mapping, written from the spec's words
(spec §4.4): a boolean maps to itself; a numeric input by `specNumTruthy`; a
string by case-insensitive membership in the two token sets, any other string
by numeric parse with fallback to false; absent/None to false. The spec does
not describe `other` objects, so that constructor (mapped here to its truth
value) is excluded from the claim's quantifier. -/
def specBoolCoerce : PyValue → Bool
  | .none => false
  | .bool b => b
  | .int n => if n = 0 then false else true
  | .float f => specNumTruthy f
  | .str s =>
    let lower_s : String := ⟨pyLower s.data⟩
    if lower_s ∈ ["true", "1", "yes", "on"] then true
    else if lower_s ∈ ["false", "0", "no", "off", ""] then false
    else
      match pyParseFloat s with
      | some f => specNumTruthy f
      | Option.none => false
  | .other t => t

/-- The specification-side boolean coercion mapping amended to what the code
does: membership testing additionally trims surrounding whitespace (the code
applies `.strip()` after `.lower()`), and a NaN number — or a string parsing
to NaN — is truthy, because Python evaluates `nan != 0` to `True`. -/
def specBoolCoerceAmended : PyValue → Bool
  | .none => false
  | .bool b => b
  | .int n => if n = 0 then false else true
  | .float f => f.neZero
  | .str s =>
    let lower_s : String := ⟨pyStrip (pyLower s.data)⟩
    if lower_s ∈ ["true", "1", "yes", "on"] then true
    else if lower_s ∈ ["false", "0", "no", "off", ""] then false
    else
      match pyParseFloat s with
      | some f => f.neZero
      | Option.none => false
  | .other t => t

/-- A run environment with no interrupts, an always-failing detector and an
always-successful database. -/
def trivialEnv : LoopEnv :=
  { detect := fun _ => .raise "offline"
    insertOk := fun _ => true
    interruptBefore := Option.none }

/-- A run environment delivering a `KeyboardInterrupt` at the boundary before
the third image (0-based index 2), with a healthy detector and database. -/
def cancelEnv : LoopEnv :=
  { detect := fun _ => .ok "det"
    insertOk := fun _ => true
    interruptBefore := some 2 }

/-- A five-image discovered list. -/
def images5 : List (String × String) :=
  [("i1", "c"), ("i2", "c"), ("i3", "c"), ("i4", "c"), ("i5", "c")]

/-- Scenario D of the spec: the detector raises on the second of three images
and behaves normally otherwise; the database accepts every insert. -/
def scenarioDEnv : LoopEnv :=
  { detect := fun p => if p = "img2" then .raise "boom" else .ok "det"
    insertOk := fun _ => true
    interruptBefore := Option.none }

/-- A three-image discovered list for scenario D. -/
def images3 : List (String × String) :=
  [("img1", "cls"), ("img2", "cls"), ("img3", "cls")]

/-- A run environment whose detector always succeeds but whose database
rejects every insert. -/
def insertFailEnv : LoopEnv :=
  { detect := fun _ => .ok "det"
    insertOk := fun _ => false
    interruptBefore := Option.none }

end KiProject

namespace KiProject

/-- Claim C1, counterexample: the code maps the float NaN to 1 because Python
evaluates `nan != 0` to `True`, while the spec's mapping treats NaN as falsy. -/
theorem C1_counterexample_nan :
    safe_convert_to_int (.float .nan) = 1 ∧ specBoolCoerce (.float .nan) = false :=
  ⟨rfl, rfl⟩

/-- Claim C1, amended: `_safe_convert_to_int` agrees on every spec-covered
value with the spec's mapping amended in two points forced by the code: token
membership is tested after trimming surrounding whitespace, and NaN (as a
float or as a parsed string) is truthy; the Scenario C values hold as the spec
states them. -/
theorem C1_amended :
    (∀ v : PyValue, (∀ t, v ≠ PyValue.other t) →
      safe_convert_to_int v = (if specBoolCoerceAmended v then 1 else 0)) ∧
    safe_convert_to_int (.str "TRUE") = 1 ∧
    safe_convert_to_int (.float (.finite 0)) = 0 ∧
    safe_convert_to_int PyValue.none = 0 ∧
    safe_convert_to_int (.str "maybe") = 0 := by
  refine ⟨?_, by decide, by decide, rfl, by decide⟩
  intro v hv
  cases v with
  | other t => exact absurd rfl (hv t)
  | none => rfl
  | bool b => cases b <;> rfl
  | int n => by_cases h : n = 0 <;> simp [safe_convert_to_int, specBoolCoerceAmended, h]
  | float f => cases f <;> rfl
  | str s =>
    unfold safe_convert_to_int specBoolCoerceAmended
    by_cases h1 : (⟨pyStrip (pyLower s.data)⟩ : String) ∈ ["true", "1", "yes", "on"]
    · simp [h1]
    · by_cases h2 : (⟨pyStrip (pyLower s.data)⟩ : String) ∈ ["false", "0", "no", "off", ""]
      · simp [h1, h2]
      · rcases h : pyParseFloat s with _ | f <;> simp [h1, h2, pyFloatOf, h]

/-- Witness for claim C1's amended theorem at the concrete input `"TRUE"`. -/
theorem C1_amended_witness :
    safe_convert_to_int (.str "TRUE") = (if specBoolCoerceAmended (.str "TRUE") then 1 else 0) :=
  C1_amended.1 (.str "TRUE") (fun _ h => nomatch h)

/-- Claim C2, counterexample: with an empty discovered list the run record
keeps its insert-time status `'running'`; it is never updated to
`'completed'`. -/
theorem C2_counterexample :
    (process_images trivialEnv [] Option.none).1.status = "running" ∧
    (process_images trivialEnv [] Option.none).1.status ≠ "completed" := by
  exact ⟨rfl, by decide⟩

/-- Claim C2, amended: an empty image list makes `process_images` return
immediately without calling `update_run_completion`; the run record keeps the
insert defaults (status `'running'`, zero counts) and no result is written. -/
theorem C2_amended :
    ∀ (env : LoopEnv) (max_images : Option ℕ),
      process_images env [] max_images =
        ({ status := "running", total_images := 0
           successful_detections := 0, failed_detections := 0 }, []) := by
  intro env mi; rfl

/-- Claim C4, counterexample: after a stop and a new start the CPU buffer
still holds the sample recorded in the previous window, so sampling does not
begin with empty buffers. -/
theorem C4_counterexample :
    ((((SystemMonitor.init.start_monitoring).recordSample 50 60 0).stop_monitoring).start_monitoring).cpu_usage = [50] ∧
    ((((SystemMonitor.init.start_monitoring).recordSample 50 60 0).stop_monitoring).start_monitoring).cpu_usage ≠ [] := by
  exact ⟨rfl, by decide⟩

/-- Claim C4, amended: `start_monitoring` leaves the three sample buffers
and the aggregates untouched; buffers are cleared only by the separate
`reset_stats`, which `start_monitoring` never calls. -/
theorem C4_amended :
    ∀ m : SystemMonitor,
      m.start_monitoring.cpu_usage = m.cpu_usage ∧
      m.start_monitoring.memory_usage = m.memory_usage ∧
      m.start_monitoring.gpu_usage = m.gpu_usage ∧
      m.start_monitoring.get_average_usage = m.get_average_usage ∧
      m.reset_stats.cpu_usage = [] ∧ m.reset_stats.memory_usage = [] ∧
      m.reset_stats.gpu_usage = [] :=
  fun _ => ⟨rfl, rfl, rfl, rfl, rfl, rfl, rfl⟩

/-- Claim C8: evaluation at the failing input. `_safe_convert_to_int_nullable`
on an infinite float raises `OverflowError` from Python `int()`, which the
`except (ValueError, TypeError)` clause does not catch, so the coercer is not
total as the spec requires. -/
theorem C8_bug :
    safe_convert_to_int_nullable (.float .inf) = .error .overflowError ∧
    safe_convert_to_int_nullable (.float .ninf) = .error .overflowError :=
  ⟨rfl, rfl⟩

/-- Claim C10: the flat CSV export's boolean serializer applies Python
truthiness: every non-empty string (including `"false"` and `"0"`) serializes
to `'true'` and `None` to the empty string, while the structured store coerces
the same `"false"` to 0 — the two sinks disagree on token strings. -/
theorem C10_thm :
    (∀ s : String, s ≠ "" → safe_bool_string (.str s) = "true") ∧
    safe_bool_string PyValue.none = "" ∧
    safe_bool_string (.str "false") = "true" ∧
    safe_convert_to_int (.str "false") = 0 ∧
    safe_bool_string (.str "0") = "true" ∧
    safe_convert_to_int (.str "0") = 0 := by
  refine ⟨?_, rfl, by decide, by decide, by decide, by decide⟩
  intro s hs
  have h : s.isEmpty = false := by
    rcases hh : s.isEmpty with _ | _
    · rfl
    · exact absurd ((String.isEmpty_iff s).mp hh) hs
  simp [safe_bool_string, pyTruthy, h]

/-- Witness for claim C10's theorem at the concrete non-empty string
`"no"`. -/
theorem C10_witness : safe_bool_string (.str "no") = "true" :=
  C10_thm.1 "no" (by decide)

end KiProject

namespace KiProject

lemma processLoop_counters_eq_inserts (env : LoopEnv) :
    ∀ (images : List (String × String)) (i : ℕ) (st : LoopState),
      st.successful_detections + st.failed_detections = st.inserts.length →
      (processLoop env images i st).1.successful_detections +
        (processLoop env images i st).1.failed_detections =
        (processLoop env images i st).1.inserts.length := by
  intro images
  induction images with
  | nil => intro i st h; exact h
  | cons hd tl ih =>
    intro i st h
    obtain ⟨path, cls⟩ := hd
    simp only [processLoop]
    by_cases hint : env.interruptBefore = some i
    · rw [if_pos hint]; exact h
    · rw [if_neg hint]
      cases env.detect path with
      | ok out =>
        apply ih
        cases hok : env.insertOk st.inserts.length <;>
          simp [hok, List.length_append] <;> omega
      | raise msg =>
        apply ih
        simp [List.length_append]
        omega

lemma processLoop_completed_length (env : LoopEnv) :
    ∀ (images : List (String × String)) (i : ℕ) (st : LoopState),
      (processLoop env images i st).2 = "completed" →
      (processLoop env images i st).1.inserts.length =
        st.inserts.length + images.length := by
  intro images
  induction images with
  | nil => intro i st _; simp [processLoop]
  | cons hd tl ih =>
    intro i st hc
    obtain ⟨path, cls⟩ := hd
    simp only [processLoop] at hc ⊢
    by_cases hint : env.interruptBefore = some i
    · rw [if_pos hint] at hc
      have hne : ("cancelled" : String) ≠ "completed" := by decide
      exact absurd hc hne
    · rw [if_neg hint] at hc ⊢
      revert hc
      cases env.detect path with
      | ok out =>
        intro hc
        rw [ih _ _ hc]
        simp [List.length_append]
        omega
      | raise msg =>
        intro hc
        rw [ih _ _ hc]
        simp [List.length_append]
        omega

end KiProject

namespace KiProject

/-- Claim C3, counterexample: a five-image run cancelled at the boundary
before the third image stores `total_images = 5` while
`successful_detections + failed_detections = 2`. -/
theorem C3_counterexample :
    (process_images cancelEnv images5 Option.none).1.status = "cancelled" ∧
    (process_images cancelEnv images5 Option.none).1.total_images = 5 ∧
    (process_images cancelEnv images5 Option.none).1.successful_detections = 2 ∧
    (process_images cancelEnv images5 Option.none).1.failed_detections = 0 ∧
    ¬((process_images cancelEnv images5 Option.none).1.successful_detections +
      (process_images cancelEnv images5 Option.none).1.failed_detections =
      (process_images cancelEnv images5 Option.none).1.total_images) := by
  decide

/-- Claim C3, amended: the two counters always sum to the number of
per-image results attempted, and for every run that ends with status
`'completed'` they also equal the stored `total_images`; a cancelled or failed
run stores the full capped list length, which can exceed the processed
count. -/
theorem C3_amended :
    ∀ (env : LoopEnv) (images : List (String × String)) (mi : Option ℕ),
      ((process_images env images mi).1.successful_detections +
        (process_images env images mi).1.failed_detections =
        (process_images env images mi).2.length) ∧
      ((process_images env images mi).1.status = "completed" →
        (process_images env images mi).1.successful_detections +
          (process_images env images mi).1.failed_detections =
          (process_images env images mi).1.total_images) := by
  intro env images mi
  cases images with
  | nil =>
    refine ⟨rfl, ?_⟩
    intro h
    have hne : ("running" : String) ≠ "completed" := by decide
    exact absurd h hne
  | cons hd tl =>
    refine ⟨processLoop_counters_eq_inserts env _ 0 ⟨0, 0, []⟩ rfl, ?_⟩
    intro hc
    have hlen := processLoop_completed_length env _ 0 ⟨0, 0, []⟩ hc
    have hcnt := processLoop_counters_eq_inserts env
      (applyCap mi (hd :: tl)) 0 ⟨0, 0, []⟩ rfl
    simp only [List.length_nil, Nat.zero_add] at hlen
    exact hcnt.trans hlen

/-- Witness for claim C3's amended theorem at a concrete completed run. -/
theorem C3_witness :
    (process_images trivialEnv images5 Option.none).1.successful_detections +
      (process_images trivialEnv images5 Option.none).1.failed_detections =
      (process_images trivialEnv images5 Option.none).1.total_images :=
  (C3_amended trivialEnv images5 Option.none).2 (by decide)

/-- Claim C5: a detector exception for one image adds one failed result
carrying the exception message, increments only the failed counter, and the
loop continues with the remaining images; in Scenario D (three images, the
second raises) the final record is `completed` with successful=2, failed=1 and
exactly three persisted results. -/
theorem C5_thm :
    (∀ (env : LoopEnv) (path cls : String) (rest : List (String × String))
        (i : ℕ) (st : LoopState) (msg : String),
      env.interruptBefore = Option.none →
      env.detect path = .raise msg →
      processLoop env ((path, cls) :: rest) i st =
        processLoop env rest (i + 1)
          { successful_detections := st.successful_detections
            failed_detections := st.failed_detections + 1
            inserts := st.inserts ++
              [⟨path, cls, Option.none, false, some msg,
                env.insertOk st.inserts.length⟩] }) ∧
    (process_images scenarioDEnv images3 Option.none).1 =
      ⟨"completed", 3, 2, 1⟩ ∧
    (process_images scenarioDEnv images3 Option.none).2 =
      [⟨"img1", "cls", some "det", true, Option.none, true⟩,
       ⟨"img2", "cls", Option.none, false, some "boom", true⟩,
       ⟨"img3", "cls", some "det", true, Option.none, true⟩] := by
  refine ⟨?_, by decide, by decide⟩
  intro env path cls rest i st msg hint hdet
  simp [processLoop, hint, hdet]

/-- Witness for claim C5's loop-continuation equation at a concrete raising
detector call. -/
theorem C5_witness :
    processLoop scenarioDEnv [("img2", "cls")] 0 ⟨0, 0, []⟩ =
      processLoop scenarioDEnv [] 1
        ⟨0, 1, [⟨"img2", "cls", Option.none, false, some "boom", true⟩]⟩ :=
  C5_thm.1 scenarioDEnv "img2" "cls" [] 0 ⟨0, 0, []⟩ "boom" rfl (by decide)

/-- Claim C9: on the non-exception path the successful counter is
incremented exactly when `insert_result` returned `True` and the failed
counter otherwise, while the recorded call carries `success=True` and no error
message; with a database that rejects every insert, three detected images end
as successful=0, failed=3. -/
theorem C9_thm :
    (∀ (env : LoopEnv) (path cls : String) (rest : List (String × String))
        (i : ℕ) (st : LoopState) (output : String),
      env.interruptBefore = Option.none →
      env.detect path = .ok output →
      processLoop env ((path, cls) :: rest) i st =
        processLoop env rest (i + 1)
          { successful_detections := st.successful_detections +
              (if env.insertOk st.inserts.length then 1 else 0)
            failed_detections := st.failed_detections +
              (if env.insertOk st.inserts.length then 0 else 1)
            inserts := st.inserts ++
              [⟨path, cls, some output, true, Option.none,
                env.insertOk st.inserts.length⟩] }) ∧
    (process_images insertFailEnv images3 Option.none).1 =
      ⟨"completed", 3, 0, 3⟩ ∧
    (process_images insertFailEnv images3 Option.none).2 =
      [⟨"img1", "cls", some "det", true, Option.none, false⟩,
       ⟨"img2", "cls", some "det", true, Option.none, false⟩,
       ⟨"img3", "cls", some "det", true, Option.none, false⟩] := by
  refine ⟨?_, by decide, by decide⟩
  intro env path cls rest i st output hint hdet
  simp [processLoop, hint, hdet]

/-- Witness for claim C9's accounting equation at a concrete rejected
insert. -/
theorem C9_witness :
    processLoop insertFailEnv [("img1", "cls")] 0 ⟨0, 0, []⟩ =
      processLoop insertFailEnv [] 1
        ⟨0, 1, [⟨"img1", "cls", some "det", true, Option.none, false⟩]⟩ :=
  C9_thm.1 insertFailEnv "img1" "cls" [] 0 ⟨0, 0, []⟩ "det" rfl (by decide)

end KiProject

namespace KiProject

lemma getLast!_append_singleton [Inhabited α] (l : List α) (a : α) :
    (l ++ [a]).getLast! = a :=
  List.getLast!_of_getLast? (List.getLast?_concat l)

/-- Claim C6: for a path with at least two intermediate directories below
the data root, the classification is the normalized deepest directory name,
combined as `parent_deepest` when the parent is generic; Scenario A gives
`"red"` and Scenario B gives `"2023_cats"`. -/
theorem C6_thm :
    (∀ (root init : List String) (parent deepest fname : String),
      extract_classification_from_path root
          (root ++ init ++ [parent, deepest, fname]) =
        if is_generic_folder_name parent then
          normalize_classification (parent ++ "_" ++ deepest)
        else normalize_classification deepest) ∧
    extract_classification_from_path ["root", "Images"]
      ["root", "Images", "Cars", "red", "file1.jpg"] = "red" ∧
    extract_classification_from_path ["root"]
      ["root", "dataset", "2023", "cats", "file2.jpg"] = "2023_cats" := by
  refine ⟨?_, by decide, by decide⟩
  intro root init parent deepest fname
  have h1 : relativeTo (root ++ init ++ [parent, deepest, fname]) root =
      some ((init ++ [parent, deepest]) ++ [fname]) := by
    unfold relativeTo
    rw [if_pos (by simp [List.append_assoc])]
    simp [List.append_assoc]
  unfold extract_classification_from_path
  rw [h1]
  have hlast : (init ++ [parent, deepest]).getLast! = deepest := by
    rw [show init ++ [parent, deepest] = (init ++ [parent]) ++ [deepest] by simp,
      getLast!_append_singleton]
  have hpar : (init ++ [parent, deepest]).dropLast.getLast! = parent := by
    rw [show init ++ [parent, deepest] = (init ++ [parent]) ++ [deepest] by simp,
      List.dropLast_concat, getLast!_append_singleton]
  have hlen1 : (init ++ [parent, deepest]).length ≠ 1 := by
    simp [List.length_append]
  have hlen2 : 2 ≤ (init ++ [parent, deepest]).length := by
    simp [List.length_append]
  simp only [List.dropLast_concat]
  rw [if_neg (by simp), if_neg hlen1, if_pos hlen2, hlast, hpar]

end KiProject

namespace KiProject

lemma chain'_to_NoDU : ∀ l : List Char, NoDoubleUnderscore l → NoDU l
  | [], _ => NoDU.nil
  | [c], _ => NoDU.single c
  | a :: b :: t, h =>
    NoDU.cons a b t (List.chain'_cons.mp h).1
      (chain'_to_NoDU (b :: t) (List.chain'_cons.mp h).2)

lemma NoDU_to_chain' {l : List Char} (h : NoDU l) : NoDoubleUnderscore l := by
  induction h with
  | nil => simp [NoDoubleUnderscore]
  | single c => simp [NoDoubleUnderscore]
  | cons a b rest hab ht ih => exact List.chain'_cons.mpr ⟨hab, ih⟩

lemma toLower_toLower (c : Char) : c.toLower.toLower = c.toLower := by
  have key : ∀ n : ℕ, 65 ≤ n → n ≤ 90 →
      (Char.ofNat (n + 32)).toLower = Char.ofNat (n + 32) := by
    intro n h1 h2
    interval_cases n <;> decide
  by_cases h : 65 ≤ c.toNat ∧ c.toNat ≤ 90
  · have hc : c.toLower = Char.ofNat (c.toNat + 32) := by
      simp only [Char.toLower]
      exact if_pos ⟨h.1, h.2⟩
    rw [hc]
    exact key c.toNat h.1 h.2
  · have hc : c.toLower = c := by
      simp only [Char.toLower]
      exact if_neg h
    rw [hc, hc]

lemma mem_pyLower {c : Char} {l : List Char} (h : c ∈ pyLower l) :
    c.toLower = c := by
  obtain ⟨d, _, rfl⟩ := List.mem_map.mp h
  exact toLower_toLower d

lemma mem_replaceChar {c src : Char} {tgt l : List Char}
    (h : c ∈ replaceChar src tgt l) : c ∈ tgt ∨ (c ∈ l ∧ c ≠ src) := by
  induction l with
  | nil => simp [replaceChar] at h
  | cons a rest ih =>
    simp only [replaceChar] at h
    by_cases ha : a = src
    · rw [if_pos ha] at h
      rcases List.mem_append.mp h with h1 | h2
      · exact Or.inl h1
      · rcases ih h2 with h3 | ⟨h4, h5⟩
        · exact Or.inl h3
        · exact Or.inr ⟨List.mem_cons_of_mem a h4, h5⟩
    · rw [if_neg ha] at h
      rcases List.mem_cons.mp h with rfl | h2
      · exact Or.inr ⟨List.mem_cons_self c rest, fun hcs => ha hcs⟩
      · rcases ih h2 with h3 | ⟨h4, h5⟩
        · exact Or.inl h3
        · exact Or.inr ⟨List.mem_cons_of_mem a h4, h5⟩

lemma replaceChar_eq_self {src : Char} {tgt l : List Char} (h : src ∉ l) :
    replaceChar src tgt l = l := by
  induction l with
  | nil => rfl
  | cons a rest ih =>
    simp only [replaceChar]
    have hna : ¬(a = src) := fun ha => h (by rw [← ha]; exact List.mem_cons_self a rest)
    rw [if_neg hna, ih (fun hs => h (List.mem_cons_of_mem a hs))]

end KiProject

namespace KiProject

lemma head?_dropWhile_false {α : Type} {p : α → Bool} {l : List α} {b : α}
    (hb : (l.dropWhile p).head? = some b) : p b = false := by
  have h := List.head?_dropWhile_not p l
  rw [hb] at h
  exact h

lemma head?_append_left {α : Type} {x t : List α} (hx : x ≠ []) :
    (x ++ t).head? = x.head? := by
  cases x with
  | nil => exact absurd rfl hx
  | cons a r => rfl

lemma prefix_head?_some {α : Type} {x y : List α} (h : x <+: y) {b : α}
    (hb : x.head? = some b) : y.head? = some b := by
  obtain ⟨t, rfl⟩ := h
  have hx : x ≠ [] := by intro he; rw [he] at hb; cases hb
  rw [head?_append_left hx]
  exact hb

lemma mem_collapseUnderscores {c : Char} {l : List Char}
    (h : c ∈ collapseUnderscores l) : c ∈ l := by
  induction l with
  | nil => simp [collapseUnderscores] at h
  | cons a rest ih =>
    simp only [collapseUnderscores] at h
    by_cases ha : a = '_'
    · rw [if_pos ha] at h
      rcases List.mem_cons.mp h with rfl | h2
      · exact List.mem_cons.mpr (Or.inl ha.symm)
      · exact List.mem_cons_of_mem a (ih (List.dropWhile_subset _ h2))
    · rw [if_neg ha] at h
      rcases List.mem_cons.mp h with rfl | h2
      · exact List.mem_cons_self c rest
      · exact List.mem_cons_of_mem a (ih h2)

lemma noDouble_collapseUnderscores (l : List Char) :
    NoDoubleUnderscore (collapseUnderscores l) := by
  induction l with
  | nil => simp [collapseUnderscores, NoDoubleUnderscore]
  | cons a rest ih =>
    simp only [collapseUnderscores]
    by_cases ha : a = '_'
    · rw [if_pos ha]
      refine List.chain'_cons'.mpr ⟨?_, ?_⟩
      · intro b hb hab
        have hfalse := head?_dropWhile_false hb
        rw [hab.2] at hfalse
        simp at hfalse
      · exact List.Chain'.suffix ih (List.dropWhile_suffix _)
    · rw [if_neg ha]
      refine List.chain'_cons'.mpr ⟨?_, ih⟩
      intro b _ hab
      exact ha hab.1

lemma collapseUnderscores_eq_self {l : List Char} (h : NoDoubleUnderscore l) :
    collapseUnderscores l = l := by
  induction l with
  | nil => rfl
  | cons a rest ih =>
    have htail : NoDoubleUnderscore rest := (List.chain'_cons'.mp h).2
    simp only [collapseUnderscores]
    by_cases ha : a = '_'
    · rw [if_pos ha, ih htail]
      cases rest with
      | nil => simp [ha]
      | cons b t =>
        have hb : ¬(a = '_' ∧ b = '_') := (List.chain'_cons'.mp h).1 b rfl
        rw [List.dropWhile_cons_of_neg]
        · rw [ha]
        · simp only [decide_eq_true_eq]
          exact fun hbu => hb ⟨ha, hbu⟩
    · rw [if_neg ha, ih htail]

lemma prefix_pyDropWhileRight (p : Char → Bool) (l : List Char) :
    pyDropWhileRight p l <+: l := by
  unfold pyDropWhileRight
  have h := List.dropWhile_suffix (l := l.reverse) p
  have h2 := List.reverse_prefix.mpr h
  rwa [List.reverse_reverse] at h2

lemma infix_pyStripWith (p : Char → Bool) (l : List Char) :
    pyStripWith p l <:+: l :=
  List.IsInfix.trans
    ( List.IsPrefix.isInfix (prefix_pyDropWhileRight p (l.dropWhile p)))
    ( List.IsSuffix.isInfix (List.dropWhile_suffix p))

lemma getLast?_pyDropWhileRight_false {p : Char → Bool} {l : List Char}
    {b : Char} (hb : (pyDropWhileRight p l).getLast? = some b) : p b = false := by
  unfold pyDropWhileRight at hb
  rw [List.getLast?_reverse] at hb
  exact head?_dropWhile_false hb

lemma head?_pyStripWith_false {p : Char → Bool} {l : List Char} {b : Char}
    (hb : (pyStripWith p l).head? = some b) : p b = false := by
  unfold pyStripWith pyDropWhileLeft at hb
  have hpre := prefix_pyDropWhileRight p (l.dropWhile p)
  exact head?_dropWhile_false (prefix_head?_some hpre hb)

lemma getLast?_pyStripWith_false {p : Char → Bool} {l : List Char} {b : Char}
    (hb : (pyStripWith p l).getLast? = some b) : p b = false :=
  getLast?_pyDropWhileRight_false hb

lemma dropWhile_eq_self_of_head {p : Char → Bool} {l : List Char}
    (h : ∀ b ∈ l.head?, p b = false) : l.dropWhile p = l := by
  cases l with
  | nil => rfl
  | cons a t =>
    rw [List.dropWhile_cons_of_neg]
    simp [h a rfl]

lemma pyDropWhileRight_eq_self {p : Char → Bool} {l : List Char}
    (h : ∀ b ∈ l.getLast?, p b = false) : pyDropWhileRight p l = l := by
  cases hrev : l.reverse with
  | nil =>
    have hl : l = [] := by simpa using congrArg List.reverse hrev
    simp [pyDropWhileRight, hl]
  | cons a t =>
    have ha : l.getLast? = some a := by
      rw [List.getLast?_eq_head?_reverse, hrev]; rfl
    have hpa : ¬p a = true := by simp [h a ha]
    calc pyDropWhileRight p l
        = ((a :: t).dropWhile p).reverse := by
          unfold pyDropWhileRight; rw [hrev]
      _ = (a :: t).reverse := by rw [List.dropWhile_cons_of_neg hpa]
      _ = l.reverse.reverse := by rw [hrev]
      _ = l := List.reverse_reverse l

lemma pyStripWith_eq_self {p : Char → Bool} {l : List Char}
    (h1 : ∀ b ∈ l.head?, p b = false) (h2 : ∀ b ∈ l.getLast?, p b = false) :
    pyStripWith p l = l := by
  unfold pyStripWith pyDropWhileLeft
  rw [dropWhile_eq_self_of_head h1, pyDropWhileRight_eq_self h2]

end KiProject

namespace KiProject

lemma mem_applyReplacements {c : Char} {l : List Char}
    (hc : c ∈ applyReplacements l) :
    (c ∈ l ∨ c ∈ (['_', 'a', 'n', 'd', 'p', 'l', 'u', 's'] : List Char)) ∧
      c ∉ ([' ', '-', '.', '(', ')', '[', ']', '\x7b', '\x7d', '&', '+'] : List Char) := by
  unfold applyReplacements at hc
  rcases mem_replaceChar hc with ht | ⟨hc, hne11⟩
  · fin_cases ht <;> exact ⟨Or.inr (by decide), by decide⟩
  rcases mem_replaceChar hc with ht | ⟨hc, hne10⟩
  · fin_cases ht <;> exact ⟨Or.inr (by decide), by decide⟩
  rcases mem_replaceChar hc with ht | ⟨hc, hne9⟩
  · exact absurd ht (List.not_mem_nil c)
  rcases mem_replaceChar hc with ht | ⟨hc, hne8⟩
  · exact absurd ht (List.not_mem_nil c)
  rcases mem_replaceChar hc with ht | ⟨hc, hne7⟩
  · exact absurd ht (List.not_mem_nil c)
  rcases mem_replaceChar hc with ht | ⟨hc, hne6⟩
  · exact absurd ht (List.not_mem_nil c)
  rcases mem_replaceChar hc with ht | ⟨hc, hne5⟩
  · exact absurd ht (List.not_mem_nil c)
  rcases mem_replaceChar hc with ht | ⟨hc, hne4⟩
  · exact absurd ht (List.not_mem_nil c)
  rcases mem_replaceChar hc with ht | ⟨hc, hne3⟩
  · fin_cases ht <;> exact ⟨Or.inr (by decide), by decide⟩
  rcases mem_replaceChar hc with ht | ⟨hc, hne2⟩
  · fin_cases ht <;> exact ⟨Or.inr (by decide), by decide⟩
  rcases mem_replaceChar hc with ht | ⟨hc, hne1⟩
  · fin_cases ht <;> exact ⟨Or.inr (by decide), by decide⟩
  refine ⟨Or.inl hc, ?_⟩
  intro hmem
  simp only [List.mem_cons, List.not_mem_nil, or_false] at hmem
  rcases hmem with h | h | h | h | h | h | h | h | h | h | h
  · exact hne1 h
  · exact hne2 h
  · exact hne3 h
  · exact hne4 h
  · exact hne5 h
  · exact hne6 h
  · exact hne7 h
  · exact hne8 h
  · exact hne9 h
  · exact hne10 h
  · exact hne11 h

end KiProject

namespace KiProject

lemma applyReplacements_eq_self {l : List Char}
    (h : ∀ c ∈ ([' ', '-', '.', '(', ')', '[', ']', '\x7b', '\x7d', '&', '+'] : List Char),
      c ∉ l) : applyReplacements l = l := by
  unfold applyReplacements
  simp only [replaceChar_eq_self (h ' ' (by decide)),
    replaceChar_eq_self (h '-' (by decide)),
    replaceChar_eq_self (h '.' (by decide)),
    replaceChar_eq_self (h '(' (by decide)),
    replaceChar_eq_self (h ')' (by decide)),
    replaceChar_eq_self (h '[' (by decide)),
    replaceChar_eq_self (h ']' (by decide)),
    replaceChar_eq_self (h '\x7b' (by decide)),
    replaceChar_eq_self (h '\x7d' (by decide)),
    replaceChar_eq_self (h '&' (by decide)),
    replaceChar_eq_self (h '+' (by decide))]

lemma mem_truncStep {c : Char} {s : List Char} (hc : c ∈ truncStep s) :
    c ∈ s := by
  unfold truncStep at hc
  split at hc
  · exact List.take_subset 50 s ((prefix_pyDropWhileRight _ _).subset hc)
  · exact hc

lemma mem_fallbackStep {c : Char} {s : List Char} (hc : c ∈ fallbackStep s) :
    c ∈ ("unclassified".data : List Char) ∨ c ∈ s := by
  unfold fallbackStep at hc
  split at hc
  · exact Or.inl hc
  · exact Or.inr hc

lemma normalizeCore_char {c : Char} {l : List Char} (hc : c ∈ normalizeCore l) :
    c.toLower = c ∧
      c ∉ ([' ', '-', '.', '(', ')', '[', ']', '\x7b', '\x7d', '&', '+'] : List Char) := by
  unfold normalizeCore at hc
  rcases mem_fallbackStep (mem_truncStep hc) with hu | hc4
  · have he : ("unclassified".data : List Char) =
        ['u', 'n', 'c', 'l', 'a', 's', 's', 'i', 'f', 'i', 'e', 'd'] := rfl
    rw [he] at hu
    fin_cases hu <;> exact ⟨by decide, by decide⟩
  · have hc3 := (infix_pyStripWith _ _).subset hc4
    have hc2 := mem_collapseUnderscores hc3
    obtain ⟨hor, hnsrc⟩ := mem_applyReplacements hc2
    refine ⟨?_, hnsrc⟩
    rcases hor with h1 | htgt
    · exact mem_pyLower ((infix_pyStripWith _ _).subset h1)
    · fin_cases htgt <;> decide

lemma fallbackStep_noDouble {s : List Char} (h : NoDoubleUnderscore s) :
    NoDoubleUnderscore (fallbackStep s) := by
  unfold fallbackStep
  split
  · show NoDoubleUnderscore ['u', 'n', 'c', 'l', 'a', 's', 's', 'i', 'f', 'i', 'e', 'd']
    simp [List.chain'_cons]
  · exact h

lemma truncStep_noDouble {s : List Char} (h : NoDoubleUnderscore s) :
    NoDoubleUnderscore (truncStep s) := by
  unfold truncStep
  split
  · exact List.Chain'.prefix h
      ((prefix_pyDropWhileRight _ _).trans ( List.take_prefix _ _))
  · exact h

lemma noDouble_normalizeCore (l : List Char) :
    NoDU (normalizeCore l) := by
  have heq : normalizeCore l = truncStep (fallbackStep (pyStripWith (fun c => c = '_')
      (collapseUnderscores (applyReplacements (pyStrip (pyLower l)))))) := rfl
  rw [heq]
  generalize hx : collapseUnderscores (applyReplacements (pyStrip (pyLower l))) = x
  have hnd : NoDoubleUnderscore x := hx ▸
    noDouble_collapseUnderscores (applyReplacements (pyStrip (pyLower l)))
  exact chain'_to_NoDU _ (truncStep_noDouble (fallbackStep_noDouble
    ( List.Chain'.infix hnd (infix_pyStripWith _ _))))

lemma stripU_head (x : List Char) :
    ∀ b ∈ (pyStripWith (fun c => c = '_') x).head?, b ≠ '_' := by
  intro b hb
  rw [Option.mem_def] at hb
  simpa using head?_pyStripWith_false hb

lemma stripU_last (x : List Char) :
    ∀ b ∈ (pyStripWith (fun c => c = '_') x).getLast?, b ≠ '_' := by
  intro b hb
  rw [Option.mem_def] at hb
  simpa using getLast?_pyStripWith_false hb

lemma fallbackStep_head {s : List Char} (h : ∀ b ∈ s.head?, b ≠ '_') :
    ∀ b ∈ (fallbackStep s).head?, b ≠ '_' := by
  unfold fallbackStep
  split
  · intro b hb
    have hu : ("unclassified".data).head? = some 'u' := rfl
    rw [Option.mem_def, hu] at hb
    cases hb
    decide
  · exact h

lemma fallbackStep_last {s : List Char} (h : ∀ b ∈ s.getLast?, b ≠ '_') :
    ∀ b ∈ (fallbackStep s).getLast?, b ≠ '_' := by
  unfold fallbackStep
  split
  · intro b hb
    have hu : ("unclassified".data).getLast? = some 'd' := by decide
    rw [Option.mem_def, hu] at hb
    cases hb
    decide
  · exact h

lemma truncStep_head {s : List Char} (h : ∀ b ∈ s.head?, b ≠ '_') :
    ∀ b ∈ (truncStep s).head?, b ≠ '_' := by
  unfold truncStep
  split
  · intro b hb
    rw [Option.mem_def] at hb
    exact h b (Option.mem_def.mpr (prefix_head?_some
      ((prefix_pyDropWhileRight _ _).trans ( List.take_prefix _ _)) hb))
  · exact h

lemma truncStep_last {s : List Char} (h : ∀ b ∈ s.getLast?, b ≠ '_') :
    ∀ b ∈ (truncStep s).getLast?, b ≠ '_' := by
  unfold truncStep
  split
  · intro b hb
    rw [Option.mem_def] at hb
    simpa using getLast?_pyDropWhileRight_false hb
  · exact h

lemma ends_normalizeCore (l : List Char) :
    (∀ b ∈ (normalizeCore l).head?, b ≠ '_') ∧
    (∀ b ∈ (normalizeCore l).getLast?, b ≠ '_') := by
  unfold normalizeCore
  exact ⟨truncStep_head (fallbackStep_head (stripU_head _)),
    truncStep_last (fallbackStep_last (stripU_last _))⟩

lemma truncStep_length (s : List Char) : (truncStep s).length ≤ 50 := by
  unfold truncStep
  split
  · have h1 := (prefix_pyDropWhileRight (fun c => c = '_') (s.take 50)).length_le
    have h2 : (s.take 50).length ≤ 50 := by simp [List.length_take]
    omega
  · omega

lemma length_normalizeCore_le (l : List Char) :
    (normalizeCore l).length ≤ 50 := by
  unfold normalizeCore
  exact truncStep_length _

lemma pyLower_eq_self : ∀ l : List Char, (∀ c ∈ l, c.toLower = c) →
    pyLower l = l := by
  intro l
  induction l with
  | nil => intro _; rfl
  | cons a t ih =>
    intro h
    show (a :: t).map Char.toLower = a :: t
    rw [List.map_cons, h a (List.mem_cons_self a t)]
    have ht : t.map Char.toLower = t :=
      ih (fun c hc => h c (List.mem_cons_of_mem a hc))
    rw [ht]

end KiProject

namespace KiProject

lemma fallbackStep_eq_self {s : List Char} (hal : s.any Char.isAlphanum = true) :
    fallbackStep s = s := by
  unfold fallbackStep
  have hne : s.isEmpty = false := by
    cases s with
    | nil => simp at hal
    | cons a t => rfl
  rw [hne, hal]
  simp

lemma truncStep_eq_self {s : List Char} (hlen : s.length ≤ 50) :
    truncStep s = s := by
  unfold truncStep
  rw [if_neg (by omega)]

lemma normalizeCore_eq_self {y : List Char}
    (hlower : ∀ c ∈ y, c.toLower = c)
    (hnosrc : ∀ c ∈ y,
      c ∉ ([' ', '-', '.', '(', ')', '[', ']', '\x7b', '\x7d', '&', '+'] : List Char))
    (hnd : NoDU y)
    (hhead : ∀ b ∈ y.head?, b ≠ '_') (hlast : ∀ b ∈ y.getLast?, b ≠ '_')
    (hlen : y.length ≤ 50)
    (halnum : y.any Char.isAlphanum = true)
    (hstrip : pyStrip y = y) :
    normalizeCore y = y := by
  have h1 : pyLower y = y := pyLower_eq_self y hlower
  have h2 : applyReplacements y = y :=
    applyReplacements_eq_self (fun c hc hcl => (hnosrc c hcl) hc)
  have h3 : collapseUnderscores y = y :=
    collapseUnderscores_eq_self (NoDU_to_chain' hnd)
  have h4 : pyStripWith (fun c => c = '_') y = y :=
    pyStripWith_eq_self (fun b hb => by simp [hhead b hb])
      (fun b hb => by simp [hlast b hb])
  have h5 : fallbackStep y = y := fallbackStep_eq_self halnum
  have h6 : truncStep y = y := truncStep_eq_self hlen
  calc normalizeCore y
      = truncStep (fallbackStep (pyStripWith (fun c => c = '_')
        (collapseUnderscores (applyReplacements (pyStrip (pyLower y)))))) := rfl
    _ = y := by rw [h1, hstrip, h2, h3, h4, h5, h6]

/-- Claim C7, counterexample: normalization is not idempotent. The input
`"a\t-"` normalizes to `"a\t"` (the hyphen becomes a trailing underscore and
is stripped, exposing an interior tab), and re-normalizing strips that tab. -/
theorem C7_counterexample :
    normalize_classification "a\t-" = "a\t" ∧
    normalize_classification (normalize_classification "a\t-") ≠
      normalize_classification "a\t-" := by
  constructor
  · decide
  · decide

/-- Claim C7, amended: normalization is idempotent on every input whose
normalized form contains an alphanumeric character and carries no leading or
trailing whitespace — the two escape hatches shown by the counterexample
(whitespace exposed at an end, and truncation removing every alphanumeric)
are the only sources of non-idempotence. -/
theorem C7_amended :
    ∀ x : String,
      (normalize_classification x).data.any Char.isAlphanum = true →
      pyStrip (normalize_classification x).data = (normalize_classification x).data →
      normalize_classification (normalize_classification x) =
        normalize_classification x := by
  intro x h1 h2
  have hdata : (normalize_classification x).data = normalizeCore x.data := by
    simp only [normalize_classification]
  rw [hdata] at h1 h2
  have hy : normalizeCore (normalizeCore x.data) = normalizeCore x.data := by
    apply normalizeCore_eq_self
    · intro c hc; exact (normalizeCore_char hc).1
    · intro c hc; exact (normalizeCore_char hc).2
    · exact noDouble_normalizeCore x.data
    · exact (ends_normalizeCore x.data).1
    · exact (ends_normalizeCore x.data).2
    · exact length_normalizeCore_le x.data
    · exact h1
    · exact h2
  have hout : normalize_classification (normalize_classification x) =
      (⟨normalizeCore (normalizeCore x.data)⟩ : String) := by
    simp only [normalize_classification]
  have hout2 : normalize_classification x = (⟨normalizeCore x.data⟩ : String) := by
    simp only [normalize_classification]
  rw [hout, hout2, hy]

/-- Witness for claim C7's amended theorem at the concrete input
`"Red Car"`. -/
theorem C7_witness :
    normalize_classification (normalize_classification "Red Car") =
      normalize_classification "Red Car" :=
  C7_amended "Red Car" (by decide) (by decide)

end KiProject
